import Mathlib

/-!
Verification of the Bill Workflow & Ledger Resolution Engine of the
billing_automation repository, together with the admin dependent-dropdown
JavaScript that manages per-organization parent-ledger option lists.

The admin dropdown functions (updateParentLedgerOptions,
updateFilterHorizontalOptions, clearAllParentLedgerOptions) are embedded
from static/admin/js source. The engine itself (upload, analyze,
verify, sync, resolve) is present in the repository only through its
documentation (testing guide, curl examples); those operations are
modelled from the spec, as marked on each definition.
-/

namespace Billing

/-! ## Basic string utilities used by the resolution engine model -/

/-- Case-insensitive equality of two strings, character by character. -/
def lowerEq (a b : String) : Bool :=
  a.data.map Char.toLower == b.data.map Char.toLower

/-- Drop leading space characters. -/
def dropLeadingSpaces : List Char → List Char
  | ' ' :: cs => dropLeadingSpaces cs
  | cs => cs

/-- Read a decimal rate followed by a terminal percent sign, e.g. "18%". -/
def readRate : List Char → Nat → Bool → Option Nat
  | [], _, _ => none
  | c :: cs, acc, seen =>
    if c.isDigit then readRate cs (acc * 10 + (c.toNat - 48)) true
    else if c == '%' && cs.isEmpty && seen then some acc
    else none

/-- Characters after the last at-sign of the list, if any. -/
def afterLastAt : List Char → Option (List Char)
  | [] => none
  | '@' :: cs =>
    match afterLastAt cs with
    | some r => some r
    | none => some cs
  | _ :: cs => afterLastAt cs

/-- Rate percentage embedded in a ledger name following the naming
convention "IGST @ 18%"; none when the name embeds no rate. -/
def embeddedRate (name : String) : Option Nat :=
  match afterLastAt name.data with
  | some cs => readRate (dropLeadingSpaces cs) 0 false
  | none => none

/-! ## Admin dependent-dropdown JavaScript
(static/admin/js, tally dependent dropdown). The six TallyConfig
filter-horizontal fields each have a `_from` box (available options) and a
`_to` box (selected options). The AJAX layer is modelled by returning the
request the function would issue, if any. -/

/-- One of the six TallyConfig parent-ledger fields iterated by the
dropdown script (its fieldNames array). -/
inductive TallyField
  | igst_parents
  | cgst_parents
  | sgst_parents
  | vendor_parents
  | chart_of_accounts_parents
  | chart_of_accounts_expense_parents
deriving DecidableEq, Repr

/-- An entry of the parent-ledger list returned by the
get-parent-ledgers endpoint: data.parent_ledgers items with fields
id and parent (display name). -/
structure ParentLedgerEntry where
  id : Nat
  parent : String
deriving DecidableEq, Repr

/-- A DOM option element: its value attribute and its text. -/
structure DomOption where
  value : String
  text : String
deriving DecidableEq, Repr

/-- The pair of select boxes of one filter-horizontal field: the
`_from` box (available) and the `_to` box (selected). -/
structure FilterBoxes where
  fromOptions : List DomOption
  toOptions : List DomOption
deriving DecidableEq, Repr

/-- The admin page DOM as seen by the script: for each of the six
fields, the pair of boxes when both are present on the page (the script
checks fromBox.length && toBox.length), or none. -/
structure AdminDom where
  igst_parents : Option FilterBoxes
  cgst_parents : Option FilterBoxes
  sgst_parents : Option FilterBoxes
  vendor_parents : Option FilterBoxes
  chart_of_accounts_parents : Option FilterBoxes
  chart_of_accounts_expense_parents : Option FilterBoxes
deriving DecidableEq, Repr

/-- Look up the boxes of one field in the DOM. -/
def AdminDom.get (d : AdminDom) : TallyField → Option FilterBoxes
  | .igst_parents => d.igst_parents
  | .cgst_parents => d.cgst_parents
  | .sgst_parents => d.sgst_parents
  | .vendor_parents => d.vendor_parents
  | .chart_of_accounts_parents => d.chart_of_accounts_parents
  | .chart_of_accounts_expense_parents => d.chart_of_accounts_expense_parents

/-- The option element the script appends for one fetched ledger:
new Option(ledger.parent, ledger.id). -/
def mkLedgerOption (l : ParentLedgerEntry) : DomOption :=
  { value := toString l.id, text := l.parent }

/-- The availableIds array: parentLedgers.map(ledger => ledger.id.toString()). -/
def availableIds (parentLedgers : List ParentLedgerEntry) : List String :=
  parentLedgers.map (fun l => toString l.id)

/-- The per-field body of updateFilterHorizontalOptions: the from box is
emptied and refilled with the fetched ledgers; every option of the to
box whose value is not among the fetched ids is removed, the others are
kept in place. -/
def updateBoxes (parentLedgers : List ParentLedgerEntry) (bx : FilterBoxes) :
    FilterBoxes :=
  { fromOptions := parentLedgers.map mkLedgerOption
    toOptions :=
      bx.toOptions.filter (fun o => (availableIds parentLedgers).contains o.value) }

/-- updateFilterHorizontalOptions(parentLedgers): for each of the six
field names whose two boxes are present, apply the per-field update;
fields whose boxes are missing are skipped. -/
def updateFilterHorizontalOptions (parentLedgers : List ParentLedgerEntry)
    (d : AdminDom) : AdminDom :=
  { igst_parents := d.igst_parents.map (updateBoxes parentLedgers)
    cgst_parents := d.cgst_parents.map (updateBoxes parentLedgers)
    sgst_parents := d.sgst_parents.map (updateBoxes parentLedgers)
    vendor_parents := d.vendor_parents.map (updateBoxes parentLedgers)
    chart_of_accounts_parents :=
      d.chart_of_accounts_parents.map (updateBoxes parentLedgers)
    chart_of_accounts_expense_parents :=
      d.chart_of_accounts_expense_parents.map (updateBoxes parentLedgers) }

/-- The per-field body of clearAllParentLedgerOptions: when both boxes
are present, both are emptied. -/
def clearBoxes : Option FilterBoxes → Option FilterBoxes
  | some _ => some { fromOptions := [], toOptions := [] }
  | none => none

/-- clearAllParentLedgerOptions(): empties the from and to boxes of
every field whose boxes are present. -/
def clearAllParentLedgerOptions (d : AdminDom) : AdminDom :=
  { igst_parents := clearBoxes d.igst_parents
    cgst_parents := clearBoxes d.cgst_parents
    sgst_parents := clearBoxes d.sgst_parents
    vendor_parents := clearBoxes d.vendor_parents
    chart_of_accounts_parents := clearBoxes d.chart_of_accounts_parents
    chart_of_accounts_expense_parents :=
      clearBoxes d.chart_of_accounts_expense_parents }

/-- An AJAX GET request the dropdown script issues. -/
structure AjaxRequest where
  url : String
  orgId : String
deriving DecidableEq, Repr

/-- The fallback AJAX URL of the script. -/
def parentLedgersUrl : String := "/admin/tally/tallyconfig/get-parent-ledgers/"

/-- updateParentLedgerOptions(organizationId): a falsy (empty)
organization id clears all parent-ledger option lists and returns
without issuing a request; otherwise the DOM is left as is and the
get-parent-ledgers request is issued (its success callback later runs
updateFilterHorizontalOptions). -/
def updateParentLedgerOptions (organizationId : String) (d : AdminDom) :
    AdminDom × Option AjaxRequest :=
  if organizationId = "" then
    (clearAllParentLedgerOptions d, none)
  else
    (d, some { url := parentLedgersUrl, orgId := organizationId })

/-! ## Bill Workflow & Ledger Resolution Engine
The Django views implementing upload, analyze, verify, sync and the
ledger resolution algorithm are not part of the repository snapshot;
only their documentation (the testing guide and the verify curl
examples) is. The definitions below are therefore modelled from the
spec, and each doc comment says so. Monetary amounts are modelled in
paise (hundredths), so all amounts are natural numbers. -/

/-- Modelled from the spec: the four workflow states of a Bill. -/
inductive BillState
  | Draft
  | Analysed
  | Verified
  | Synced
deriving DecidableEq, Repr

/-- Modelled from the spec: the six functional roles the Resolution
Engine resolves candidates for. -/
inductive Role
  | Vendor
  | IGST
  | CGST
  | SGST
  | ChartOfAccounts
  | ChartOfAccountsExpense
deriving DecidableEq, Repr

/-- The tax roles (IGST, CGST, SGST). -/
def isTaxRole : Role → Bool
  | .IGST => true
  | .CGST => true
  | .SGST => true
  | _ => false

/-- Modelled from the spec: a tenant-scoped leaf account under a
ParentLedger, with optional external master id, optional tax
registration number (gst_in) and an opening balance. The owning parent
is identified by its display name. -/
structure Ledger where
  id : Nat
  tenant : Nat
  name : String
  parentName : String
  masterId : Option String
  gstIn : Option String
  openingBalance : Int
deriving DecidableEq, Repr

/-- Modelled from the spec: the per-tenant TallyConfig mapping each of
the six roles to a list of allowed parent-ledger names, in
configuration order. -/
structure TenantConfig where
  vendor_parents : List String
  igst_parents : List String
  cgst_parents : List String
  sgst_parents : List String
  chart_of_accounts_parents : List String
  chart_of_accounts_expense_parents : List String
deriving DecidableEq, Repr

/-- The configured parent set of one role. -/
def TenantConfig.parentsFor (c : TenantConfig) : Role → List String
  | .Vendor => c.vendor_parents
  | .IGST => c.igst_parents
  | .CGST => c.cgst_parents
  | .SGST => c.sgst_parents
  | .ChartOfAccounts => c.chart_of_accounts_parents
  | .ChartOfAccountsExpense => c.chart_of_accounts_expense_parents

/-- Modelled from the spec: the hard-coded default parent name of each
role, used when TenantConfig is absent or the role's set is empty:
"Sundry Creditors" for Vendor and "Duties & Taxes" for the tax roles.
The spec names no default for the chart-of-accounts roles; they are
given placeholder names no claim exercises. -/
def defaultParentName : Role → String
  | .Vendor => "Sundry Creditors"
  | .IGST => "Duties & Taxes"
  | .CGST => "Duties & Taxes"
  | .SGST => "Duties & Taxes"
  | .ChartOfAccounts => "Chart of Accounts"
  | .ChartOfAccountsExpense => "Chart of Accounts Expense"

/-- Modelled from the spec: the allowed parent-ledger set for a role,
from TenantConfig when present and non-empty for the role, else the
hard-coded default parent name. -/
def allowedParents (cfg : Option TenantConfig) (role : Role) : List String :=
  match cfg with
  | none => [defaultParentName role]
  | some c =>
    let ps := c.parentsFor role
    if ps.isEmpty then [defaultParentName role] else ps

/-- Modelled from the spec: candidateMetadata — optional structured
hints carried with a candidate name (master id, tax registration
number, rate percentage of the role-specific naming convention,
opening balance). -/
structure CandidateMetadata where
  masterId : Option String
  gstIn : Option String
  rate : Option Nat
  openingBalance : Option Int
deriving DecidableEq, Repr

/-- Candidate metadata with no hints set. -/
def CandidateMetadata.empty : CandidateMetadata :=
  { masterId := none, gstIn := none, rate := none, openingBalance := none }

/-- Modelled from the spec: the rate check of the tax-role search — an
exact rate match is required when the candidate carries a rate hint and
the ledger name embeds a rate; otherwise the name match alone decides. -/
def rateOk (md : CandidateMetadata) (ledgerName : String) : Bool :=
  match md.rate, embeddedRate ledgerName with
  | some r, some r2 => r == r2
  | _, _ => true

/-- Modelled from the spec: whether an existing ledger matches a
candidate — same tenant, owning parent among the allowed parents,
exact case-insensitive name match, and for tax roles the exact rate
match when a rate is embedded. -/
def ledgerMatches (tenant : Nat) (role : Role) (allowed : List String)
    (cand : String) (md : CandidateMetadata) (l : Ledger) : Bool :=
  l.tenant == tenant && allowed.contains l.parentName && lowerEq l.name cand &&
    (!(isTaxRole role) || rateOk md l.name)

/-- Modelled from the spec: one uploaded bill record with its workflow
state; page is the source page of a Multiple-mode split, none when the
bill references the whole file. -/
structure Bill where
  id : Nat
  tenant : Nat
  fileRef : String
  page : Option Nat
  state : BillState
deriving DecidableEq, Repr

/-- The persistent store the engine operates on: the tenant's ledgers
and bills, plus the next fresh row id. -/
structure EngineState where
  ledgers : List Ledger
  bills : List Bill
  nextId : Nat
deriving DecidableEq, Repr

/-- The ledger a failed search creates: named after the candidate,
under the first allowed parent, metadata populated from
candidateMetadata with the opening balance defaulting to zero. -/
def newLedger (st : EngineState) (tenant : Nat) (allowed : List String)
    (cand : String) (md : CandidateMetadata) : Ledger :=
  { id := st.nextId
    tenant := tenant
    name := cand
    parentName := allowed.headD ""
    masterId := md.masterId
    gstIn := md.gstIn
    openingBalance := md.openingBalance.getD 0 }

/-- Modelled from the spec: resolve(tenantId, role, candidateName,
candidateMetadata) — search the tenant's existing ledgers under the
allowed parents, first match wins; if none matches, create a new ledger
under the first allowed parent and append it to the store. -/
def resolve (st : EngineState) (cfg : Option TenantConfig) (tenant : Nat)
    (role : Role) (cand : String) (md : CandidateMetadata) :
    Ledger × EngineState :=
  let allowed := allowedParents cfg role
  match st.ledgers.find? (ledgerMatches tenant role allowed cand md) with
  | some l => (l, st)
  | none =>
    let l := newLedger st tenant allowed cand md
    (l, { st with ledgers := st.ledgers ++ [l], nextId := st.nextId + 1 })

/-! ## Workflow operations -/

/-- Modelled from the spec: the engine's error taxonomy. -/
inductive EngineError
  | UnsupportedFormat
  | SizeExceeded
  | StateConflict (current expected : BillState)
  | InvalidTaxSplit
  | NotFound
  | ValidationError
  | AnalysisError
  | SyncError
deriving DecidableEq, Repr

/-- Modelled from the spec: the two upload split modes
("Single Invoice/File" and "Multiple Invoice/File"). -/
inductive SplitMode
  | Single
  | Multiple
deriving DecidableEq, Repr

/-- An uploaded source file: its stable reference, declared type
(extension), size in bytes and page list. -/
structure UploadFile where
  ref : String
  ext : String
  size : Nat
  pages : List Nat
deriving DecidableEq, Repr

/-- The accepted file formats (testing guide: PDF, JPG, JPEG, PNG). -/
def acceptedFormats : List String := ["pdf", "jpg", "jpeg", "png"]

/-- The per-file size limit (testing guide: 10MB per file). -/
def maxFileSize : Nat := 10 * 1024 * 1024

/-- Whether a declared file type is among the accepted formats,
compared case-insensitively. -/
def supportedExt (ext : String) : Bool :=
  acceptedFormats.any (fun a => lowerEq a ext)

/-- Modelled from the spec: upload validation — UnsupportedFormat when
the file type is not among the accepted set, SizeExceeded when over the
per-file limit. -/
def validateFile (f : UploadFile) : Except EngineError Unit :=
  if !(supportedExt f.ext) then .error .UnsupportedFormat
  else if f.size > maxFileSize then .error .SizeExceeded
  else .ok ()

/-- One draft produced by the Document Splitter: the file reference and
the source page (none for a whole-file draft). -/
structure BillDraft where
  fileRef : String
  page : Option Nat
deriving DecidableEq, Repr

/-- Modelled from the spec: split(sourceFile, mode) — Single yields one
draft referencing the whole file; Multiple yields one draft per page
(the documented policy: the PDF is split into individual pages, each
creating a separate bill). -/
def split (f : UploadFile) : SplitMode → List BillDraft
  | .Single => [{ fileRef := f.ref, page := none }]
  | .Multiple => f.pages.map (fun p => { fileRef := f.ref, page := some p })

/-- Persist a list of drafts as Bills in Draft state with consecutive
fresh ids. -/
def mkBills (tenant : Nat) : Nat → List BillDraft → List Bill
  | _, [] => []
  | nid, d :: ds =>
    { id := nid, tenant := tenant, fileRef := d.fileRef, page := d.page,
      state := BillState.Draft } :: mkBills tenant (nid + 1) ds

/-- Modelled from the spec: upload(file, splitMode) — validate the
file, run the Document Splitter, and atomically persist every resulting
draft as a Bill in Draft state (all or none). -/
def upload (st : EngineState) (tenant : Nat) (f : UploadFile)
    (mode : SplitMode) : Except EngineError (EngineState × List Bill) :=
  match validateFile f with
  | .error e => .error e
  | .ok _ =>
    let bills := mkBills tenant st.nextId (split f mode)
    .ok ({ st with
            bills := st.bills ++ bills
            nextId := st.nextId + bills.length }, bills)

/-- Look up a bill by id. -/
def findBill (st : EngineState) (billId : Nat) : Option Bill :=
  st.bills.find? (fun b => b.id == billId)

/-- Set the state of the bill with the given id. -/
def setBillState (st : EngineState) (billId : Nat) (s : BillState) :
    EngineState :=
  { st with bills := st.bills.map (fun b =>
      if b.id == billId then { b with state := s } else b) }

/-- Modelled from the spec: analyze(billId) — only callable on a Draft
bill, otherwise a state-conflict error reporting current and expected
state; the external AI outcome is the aiOk argument, and on AI failure
the bill stays in Draft and AnalysisError is surfaced. -/
def analyze (st : EngineState) (billId : Nat) (aiOk : Bool) :
    Except EngineError (EngineState × Bill) :=
  match findBill st billId with
  | none => .error .NotFound
  | some b =>
    if b.state = BillState.Draft then
      if aiOk then
        .ok (setBillState st billId .Analysed, { b with state := .Analysed })
      else .error .AnalysisError
    else .error (.StateConflict b.state .Draft)

/-- Modelled from the spec: the bill-level tax amounts of a verify
payload, in paise. -/
structure TaxAmounts where
  igst : Nat
  cgst : Nat
  sgst : Nat
deriving DecidableEq, Repr

/-- Modelled from the spec: a line item of a verify payload. -/
structure LineItem where
  itemName : String
  quantity : Nat
  price : Nat
  amount : Nat
deriving DecidableEq, Repr

/-- Modelled from the spec: the verify payload — the target bill, the
corrected vendor with its metadata, tax amounts with their tax-ledger
names, the line items and the bill total. -/
structure VerifyPayload where
  billId : Nat
  vendorName : String
  vendorMeta : CandidateMetadata
  taxes : TaxAmounts
  igstLedgerName : String
  cgstLedgerName : String
  sgstLedgerName : String
  items : List LineItem
  total : Nat
deriving DecidableEq, Repr

/-- Modelled from the spec: the forbidden tax split — IGST positive
together with a positive CGST or SGST. -/
def badTaxSplit (t : TaxAmounts) : Bool :=
  t.igst > 0 && (t.cgst > 0 || t.sgst > 0)

/-- Sum of the line-item amounts. -/
def itemsTotal (items : List LineItem) : Nat :=
  (items.map (fun i => i.amount)).foldl (· + ·) 0

/-- Modelled from the spec: the total-consistency check — line-item
total plus bill-level taxes equals the bill total. -/
def totalsConsistent (p : VerifyPayload) : Bool :=
  itemsTotal p.items + p.taxes.igst + p.taxes.cgst + p.taxes.sgst == p.total

/-- Candidate metadata of a tax-ledger name: the rate hint is the rate
embedded in the role-specific naming convention. -/
def taxMeta (name : String) : CandidateMetadata :=
  { masterId := none, gstIn := none, rate := embeddedRate name,
    openingBalance := none }

/-- Modelled from the spec: verify(billId, payload) — requires the bill
in Analysed state, validates the IGST-vs-CGST+SGST mutual exclusivity
before creating or linking any tax ledger, then resolves the vendor
ledger and each applicable tax ledger (creating as needed), validates
the totals, and only then commits: an error discards every ledger
resolved within the call and returns no new state. -/
def verify (st : EngineState) (cfg : Option TenantConfig) (tenant : Nat)
    (p : VerifyPayload) : Except EngineError (EngineState × Ledger) :=
  match findBill st p.billId with
  | none => .error .NotFound
  | some b =>
    if b.state = BillState.Analysed then
      if badTaxSplit p.taxes then .error .InvalidTaxSplit
      else
        let r := resolve st cfg tenant .Vendor p.vendorName p.vendorMeta
        let st1 := r.2
        let st2 := if p.taxes.igst > 0 then
            (resolve st1 cfg tenant .IGST p.igstLedgerName
              (taxMeta p.igstLedgerName)).2
          else st1
        let st3 := if p.taxes.cgst > 0 then
            (resolve st2 cfg tenant .CGST p.cgstLedgerName
              (taxMeta p.cgstLedgerName)).2
          else st2
        let st4 := if p.taxes.sgst > 0 then
            (resolve st3 cfg tenant .SGST p.sgstLedgerName
              (taxMeta p.sgstLedgerName)).2
          else st3
        if totalsConsistent p then
          .ok (setBillState st4 p.billId .Verified, r.1)
        else .error .ValidationError
    else .error (.StateConflict b.state .Analysed)

/-- A debit/credit line of the external posting payload; credits are
negative. -/
structure PostingLine where
  ledgerId : Nat
  amount : Int
deriving DecidableEq, Repr

/-- Modelled from the spec: sync(billId) — requires the bill Verified, a
posting payload balancing to zero, and a successful external hand-off
(the externalOk argument); failure of the external call surfaces as
SyncError and does not transition the bill. -/
def sync (st : EngineState) (billId : Nat) (payload : List PostingLine)
    (externalOk : Bool) : Except EngineError EngineState :=
  match findBill st billId with
  | none => .error .NotFound
  | some b =>
    if b.state = BillState.Verified then
      if (payload.map (fun l => l.amount)).foldl (· + ·) 0 = 0 then
        if externalOk then .ok (setBillState st billId .Synced)
        else .error .SyncError
      else .error .ValidationError
    else .error (.StateConflict b.state .Verified)

/-! ## Commit semantics
Each operation is atomic: a failing call commits nothing, so the store
visible after an operation is the original one on error and the
returned one on success. -/

/-- The store after an upload call. -/
def runUpload (st : EngineState) (tenant : Nat) (f : UploadFile)
    (mode : SplitMode) : EngineState :=
  match upload st tenant f mode with
  | .ok (st', _) => st'
  | .error _ => st

/-- The store after an analyze call. -/
def runAnalyze (st : EngineState) (billId : Nat) (aiOk : Bool) :
    EngineState :=
  match analyze st billId aiOk with
  | .ok (st', _) => st'
  | .error _ => st

/-- The store after a verify call. -/
def runVerify (st : EngineState) (cfg : Option TenantConfig) (tenant : Nat)
    (p : VerifyPayload) : EngineState :=
  match verify st cfg tenant p with
  | .ok (st', _) => st'
  | .error _ => st

/-- The store after a sync call. -/
def runSync (st : EngineState) (billId : Nat) (payload : List PostingLine)
    (externalOk : Bool) : EngineState :=
  match sync st billId payload externalOk with
  | .ok st' => st'
  | .error _ => st

/-! ## Concrete sample data used by the witness theorems -/

/-- A sample selected box holding a surviving and a stale option. -/
def bxOldW : FilterBoxes :=
  { fromOptions := []
    toOptions := [{ value := "3", text := "Sundry Creditors" },
                  { value := "4", text := "Old Parent" }] }

/-- A sample admin DOM where only the vendor field's boxes are present. -/
def domW : AdminDom :=
  { igst_parents := none
    cgst_parents := none
    sgst_parents := none
    vendor_parents := some bxOldW
    chart_of_accounts_parents := none
    chart_of_accounts_expense_parents := none }

/-- A sample fetched parent-ledger list holding only ledger 3. -/
def plsW : List ParentLedgerEntry := [{ id := 3, parent := "Sundry Creditors" }]

/-- The empty engine store. -/
def stEmpty : EngineState := { ledgers := [], bills := [], nextId := 0 }

/-- A sample vendor ledger under Sundry Creditors. -/
def ledgerW : Ledger :=
  { id := 5, tenant := 1, name := "ABC Technologies Pvt Ltd"
    parentName := "Sundry Creditors", masterId := some "V001"
    gstIn := some "27AABCU9603R1ZX", openingBalance := 0 }

/-- A store already holding the sample vendor ledger. -/
def stFound : EngineState := { ledgers := [ledgerW], bills := [], nextId := 6 }

/-- A sample bill in Analysed state. -/
def billAnalysedW : Bill :=
  { id := 1, tenant := 1, fileRef := "f.pdf", page := none,
    state := BillState.Analysed }

/-- A store holding only the sample Analysed bill. -/
def stAnalysed : EngineState :=
  { ledgers := [], bills := [billAnalysedW], nextId := 10 }

/-- A verify payload with the forbidden tax split (IGST and CGST both
positive). -/
def pBadSplit : VerifyPayload :=
  { billId := 1, vendorName := "ABC Technologies Pvt Ltd"
    vendorMeta := CandidateMetadata.empty
    taxes := { igst := 180000, cgst := 45000, sgst := 0 }
    igstLedgerName := "IGST @ 18%", cgstLedgerName := "CGST @ 9%"
    sgstLedgerName := "SGST @ 9%", items := [], total := 0 }

/-- A sample valid upload file: a 3-page PDF under the size limit. -/
def fPdfW : UploadFile := { ref := "bills/a.pdf", ext := "pdf", size := 2048, pages := [1, 2, 3] }

/-- A sample upload file of an unaccepted type. -/
def fExeW : UploadFile := { ref := "bills/a.exe", ext := "exe", size := 2048, pages := [1] }

/-- A sample oversized PDF upload file. -/
def fBigW : UploadFile :=
  { ref := "bills/big.pdf", ext := "pdf", size := 10 * 1024 * 1024 + 1, pages := [1] }

/-! ## Helper lemmas -/

theorem clearBoxes_eq_some {o : Option FilterBoxes} {bx : FilterBoxes}
    (h : clearBoxes o = some bx) :
    bx.fromOptions = [] ∧ bx.toOptions = [] := by
  cases o with
  | none => simp [clearBoxes] at h
  | some a =>
    simp [clearBoxes] at h
    simp [← h]

theorem get_clearAll (d : AdminDom) (f : TallyField) :
    (clearAllParentLedgerOptions d).get f = clearBoxes (d.get f) := by
  cases f <;> rfl

theorem get_updateFH (parentLedgers : List ParentLedgerEntry) (d : AdminDom)
    (f : TallyField) :
    (updateFilterHorizontalOptions parentLedgers d).get f =
      (d.get f).map (updateBoxes parentLedgers) := by
  cases f <;> rfl

/-! ## Claims about the admin dropdown script -/

/-- C9: updateParentLedgerOptions with an empty (falsy) organization id
clears every present parent-ledger option list and issues no network
request; a fetch is issued, and the DOM left untouched pending its
response, exactly when the organization id is non-empty. -/
theorem updateParentLedgerOptions_falsy_clears (d : AdminDom) (orgId : String) :
    (orgId = "" →
      (updateParentLedgerOptions orgId d).2 = none ∧
      ∀ f bx, (updateParentLedgerOptions orgId d).1.get f = some bx →
        bx.fromOptions = [] ∧ bx.toOptions = []) ∧
    (orgId ≠ "" →
      (updateParentLedgerOptions orgId d).2 =
        some { url := parentLedgersUrl, orgId := orgId } ∧
      (updateParentLedgerOptions orgId d).1 = d) := by
  constructor
  · intro h
    subst h
    have hif : updateParentLedgerOptions "" d = (clearAllParentLedgerOptions d, none) := by
      simp [updateParentLedgerOptions]
    rw [hif]
    refine ⟨rfl, ?_⟩
    intro f bx hbx
    rw [get_clearAll] at hbx
    exact clearBoxes_eq_some hbx
  · intro h
    simp [updateParentLedgerOptions, h]

/-- Witness for C9 at a concrete DOM and organization ids. -/
theorem updateParentLedgerOptions_falsy_clears_witness :
    (updateParentLedgerOptions "" domW).2 = none ∧
    (updateParentLedgerOptions "org-7" domW).2 =
      some { url := parentLedgersUrl, orgId := "org-7" } :=
  ⟨((updateParentLedgerOptions_falsy_clears domW "").1 rfl).1,
   ((updateParentLedgerOptions_falsy_clears domW "org-7").2 (by decide)).1⟩

/-- C10: after updateFilterHorizontalOptions runs over a fetched
parent-ledger list, every option remaining in a field's selected box
has an id occurring in the fetched list; previously selected options
with a stale id are removed and the surviving ones preserved. -/
theorem updateFilterHorizontalOptions_to_membership
    (pls : List ParentLedgerEntry) (d : AdminDom) (f : TallyField)
    (bxOld bxNew : FilterBoxes)
    (hold : d.get f = some bxOld)
    (hnew : (updateFilterHorizontalOptions pls d).get f = some bxNew) :
    (∀ o ∈ bxNew.toOptions, o.value ∈ availableIds pls) ∧
    (∀ o ∈ bxOld.toOptions, o.value ∈ availableIds pls → o ∈ bxNew.toOptions) ∧
    (∀ o ∈ bxOld.toOptions, o.value ∉ availableIds pls → o ∉ bxNew.toOptions) := by
  rw [get_updateFH, hold] at hnew
  simp only [Option.map_some'] at hnew
  have hbx : bxNew = updateBoxes pls bxOld := Option.some.inj hnew.symm
  subst hbx
  refine ⟨?_, ?_, ?_⟩
  · intro o ho
    simp only [updateBoxes, List.mem_filter] at ho
    have := ho.2
    simpa [List.contains, List.elem_eq_mem] using this
  · intro o ho hmem
    simp only [updateBoxes, List.mem_filter]
    exact ⟨ho, by simpa [List.contains, List.elem_eq_mem] using hmem⟩
  · intro o ho hmem hcontra
    simp only [updateBoxes, List.mem_filter] at hcontra
    exact hmem (by simpa [List.contains, List.elem_eq_mem] using hcontra.2)

/-- Witness for C10 at the sample DOM and fetched list: the stale
option "4" is gone and only ids of the fetched list remain selected. -/
theorem updateFilterHorizontalOptions_to_membership_witness :
    domW.get TallyField.vendor_parents = some bxOldW ∧
    ∀ o ∈ (updateBoxes plsW bxOldW).toOptions, o.value ∈ availableIds plsW := by
  refine ⟨rfl, ?_⟩
  exact (updateFilterHorizontalOptions_to_membership plsW domW .vendor_parents
    bxOldW (updateBoxes plsW bxOldW) rfl (by decide)).1

/-! ## Helper lemmas about the resolution engine -/

theorem lowerEq_self (s : String) : lowerEq s s = true := by
  simp [lowerEq]

theorem allowedParents_ne_nil (cfg : Option TenantConfig) (role : Role) :
    allowedParents cfg role ≠ [] := by
  cases cfg with
  | none => simp [allowedParents]
  | some c =>
    simp only [allowedParents]
    split
    · simp
    · next h =>
      intro hnil
      exact h (by simp [hnil])

theorem contains_headD (l : List String) (x : String) (h : l ≠ []) :
    l.contains (l.headD x) = true := by
  cases l with
  | nil => exact absurd rfl h
  | cons a as => simp

theorem ledgerMatches_newLedger (st : EngineState) (cfg : Option TenantConfig)
    (tenant : Nat) (role : Role) (cand : String) (md : CandidateMetadata)
    (hrate : rateOk md cand = true) :
    ledgerMatches tenant role (allowedParents cfg role) cand md
      (newLedger st tenant (allowedParents cfg role) cand md) = true := by
  obtain ⟨a, as, hcons⟩ : ∃ a as, allowedParents cfg role = a :: as := by
    cases hl : allowedParents cfg role with
    | nil => exact absurd hl (allowedParents_ne_nil cfg role)
    | cons a as => exact ⟨a, as, rfl⟩
  rw [hcons]
  simp [ledgerMatches, newLedger, lowerEq_self, hrate]

/-! ## Claims about the resolution engine -/

/-- C2: resolve searches the tenant's existing Ledgers under the
allowed parents for an exact case-insensitive name match (with the
exact rate check for tax roles) and returns the first match with the
store untouched; when no ledger matches, it creates a new Ledger under
the first allowed parent in configuration order, named after the
candidate, with master id, tax registration number and opening balance
(defaulting to zero) taken from the candidate metadata, appends it to
the store and returns it. -/
theorem resolve_search_or_create (st : EngineState) (cfg : Option TenantConfig)
    (tenant : Nat) (role : Role) (cand : String) (md : CandidateMetadata) :
    (∀ l, st.ledgers.find?
        (ledgerMatches tenant role (allowedParents cfg role) cand md) = some l →
      resolve st cfg tenant role cand md = (l, st)) ∧
    (st.ledgers.find?
        (ledgerMatches tenant role (allowedParents cfg role) cand md) = none →
      resolve st cfg tenant role cand md =
        (newLedger st tenant (allowedParents cfg role) cand md,
          { ledgers :=
              st.ledgers ++ [newLedger st tenant (allowedParents cfg role) cand md]
            bills := st.bills
            nextId := st.nextId + 1 }) ∧
      (newLedger st tenant (allowedParents cfg role) cand md).name = cand ∧
      (newLedger st tenant (allowedParents cfg role) cand md).parentName =
        (allowedParents cfg role).headD "" ∧
      (newLedger st tenant (allowedParents cfg role) cand md).masterId = md.masterId ∧
      (newLedger st tenant (allowedParents cfg role) cand md).gstIn = md.gstIn ∧
      (newLedger st tenant (allowedParents cfg role) cand md).openingBalance =
        md.openingBalance.getD 0) := by
  constructor
  · intro l h
    simp [resolve, h]
  · intro h
    exact ⟨by simp [resolve, h], rfl, rfl, rfl, rfl, rfl⟩

/-- Witness for C2: a lower-cased candidate finds the existing sample
vendor ledger without touching the store, and an unknown candidate is
created and appended. -/
theorem resolve_search_or_create_witness :
    resolve stFound none 1 .Vendor "abc technologies pvt ltd"
        CandidateMetadata.empty = (ledgerW, stFound) ∧
    resolve stEmpty none 1 .Vendor "New Vendor Ltd" CandidateMetadata.empty =
      (newLedger stEmpty 1 (allowedParents none .Vendor) "New Vendor Ltd"
          CandidateMetadata.empty,
        { ledgers := stEmpty.ledgers ++
            [newLedger stEmpty 1 (allowedParents none .Vendor) "New Vendor Ltd"
              CandidateMetadata.empty]
          bills := stEmpty.bills
          nextId := stEmpty.nextId + 1 }) := by
  constructor
  · exact (resolve_search_or_create stFound none 1 .Vendor
      "abc technologies pvt ltd" CandidateMetadata.empty).1 ledgerW (by decide)
  · exact ((resolve_search_or_create stEmpty none 1 .Vendor "New Vendor Ltd"
      CandidateMetadata.empty).2 (by decide)).1

/-- C3: with no TenantConfig, or an empty configured parent set for the
role, the engine uses the hard-coded default parent name — "Sundry
Creditors" for Vendor and "Duties & Taxes" for the tax roles — and in
particular a vendor candidate not yet present as a Ledger is created
under "Sundry Creditors". -/
theorem resolve_default_parents :
    allowedParents none Role.Vendor = ["Sundry Creditors"] ∧
    (∀ role, isTaxRole role = true →
      allowedParents none role = ["Duties & Taxes"]) ∧
    (∀ c role, (c.parentsFor role).isEmpty = true →
      allowedParents (some c) role = [defaultParentName role]) ∧
    (∀ st tenant md,
      st.ledgers.find?
        (ledgerMatches tenant .Vendor ["Sundry Creditors"] "New Vendor Ltd" md) =
          none →
      (resolve st none tenant .Vendor "New Vendor Ltd" md).1.parentName =
        "Sundry Creditors" ∧
      (resolve st none tenant .Vendor "New Vendor Ltd" md).1.name =
        "New Vendor Ltd" ∧
      (resolve st none tenant .Vendor "New Vendor Ltd" md).2.ledgers =
        st.ledgers ++ [(resolve st none tenant .Vendor "New Vendor Ltd" md).1]) := by
  refine ⟨rfl, ?_, ?_, ?_⟩
  · intro role h
    cases role <;> simp_all [isTaxRole, allowedParents, defaultParentName]
  · intro c role h
    simp [allowedParents, h]
  · intro st tenant md h
    have hall : allowedParents none Role.Vendor = ["Sundry Creditors"] := rfl
    refine ⟨?_, ?_, ?_⟩ <;>
      simp [resolve, hall, h, newLedger]

/-- Witness for C3: the tax-role default, and the creation of
"New Vendor Ltd" under "Sundry Creditors" in the empty store. -/
theorem resolve_default_parents_witness :
    isTaxRole Role.IGST = true ∧
    allowedParents none Role.IGST = ["Duties & Taxes"] ∧
    (resolve stEmpty none 1 .Vendor "New Vendor Ltd"
      CandidateMetadata.empty).1.parentName = "Sundry Creditors" := by
  refine ⟨rfl, resolve_default_parents.2.1 Role.IGST rfl, ?_⟩
  exact (resolve_default_parents.2.2.2 stEmpty 1 CandidateMetadata.empty
    (by decide)).1

/-- C8: resolving the same candidate twice for one tenant and role
converges to a single Ledger row — a second resolution run against the
store committed by the first returns the very same ledger and leaves
the store unchanged (idempotent creation). -/
theorem resolve_idempotent (st : EngineState) (cfg : Option TenantConfig)
    (tenant : Nat) (role : Role) (cand : String) (md : CandidateMetadata)
    (hrate : rateOk md cand = true) :
    resolve (resolve st cfg tenant role cand md).2 cfg tenant role cand md =
      resolve st cfg tenant role cand md := by
  cases h : st.ledgers.find?
      (ledgerMatches tenant role (allowedParents cfg role) cand md) with
  | some l =>
    have h1 : resolve st cfg tenant role cand md = (l, st) := by simp [resolve, h]
    rw [h1]
    exact h1
  | none =>
    have h1 : resolve st cfg tenant role cand md =
        (newLedger st tenant (allowedParents cfg role) cand md,
          { ledgers :=
              st.ledgers ++ [newLedger st tenant (allowedParents cfg role) cand md]
            bills := st.bills
            nextId := st.nextId + 1 }) := by simp [resolve, h]
    rw [h1]
    simp [resolve, List.find?_append, h,
      ledgerMatches_newLedger st cfg tenant role cand md hrate]

/-- Witness for C8: creating and re-resolving "New Vendor Ltd" in the
empty store returns the same row and store. -/
theorem resolve_idempotent_witness :
    rateOk CandidateMetadata.empty "New Vendor Ltd" = true ∧
    resolve (resolve stEmpty none 1 .Vendor "New Vendor Ltd"
        CandidateMetadata.empty).2 none 1 .Vendor "New Vendor Ltd"
        CandidateMetadata.empty =
      resolve stEmpty none 1 .Vendor "New Vendor Ltd" CandidateMetadata.empty :=
  ⟨by decide, resolve_idempotent stEmpty none 1 .Vendor "New Vendor Ltd"
    CandidateMetadata.empty (by decide)⟩

/-! ## Claims about the workflow operations -/

theorem mkBills_length (tenant : Nat) :
    ∀ (n : Nat) (ds : List BillDraft), (mkBills tenant n ds).length = ds.length
  | _, [] => rfl
  | n, _ :: ds => by simp [mkBills, mkBills_length tenant (n + 1) ds]

theorem mkBills_map_page (tenant : Nat) :
    ∀ (n : Nat) (ds : List BillDraft),
      (mkBills tenant n ds).map Bill.page = ds.map BillDraft.page
  | _, [] => rfl
  | n, _ :: ds => by simp [mkBills, mkBills_map_page tenant (n + 1) ds]

theorem mkBills_map_fileRef (tenant : Nat) :
    ∀ (n : Nat) (ds : List BillDraft),
      (mkBills tenant n ds).map Bill.fileRef = ds.map BillDraft.fileRef
  | _, [] => rfl
  | n, _ :: ds => by simp [mkBills, mkBills_map_fileRef tenant (n + 1) ds]

/-- C1: a verify call on an Analysed bill whose payload has IGST > 0
together with CGST > 0 or SGST > 0 fails with InvalidTaxSplit, and the
validation happens before any tax ledger is created or linked — the
committed store is exactly the one before the call. -/
theorem verify_invalid_tax_split (st : EngineState) (cfg : Option TenantConfig)
    (tenant : Nat) (p : VerifyPayload) (b : Bill)
    (hfind : findBill st p.billId = some b)
    (hstate : b.state = BillState.Analysed)
    (hsplit : badTaxSplit p.taxes = true) :
    verify st cfg tenant p = .error .InvalidTaxSplit ∧
    runVerify st cfg tenant p = st := by
  have h1 : verify st cfg tenant p = .error .InvalidTaxSplit := by
    simp [verify, hfind, hstate, hsplit]
  exact ⟨h1, by simp [runVerify, h1]⟩

/-- Witness for C1: an Analysed bill with both IGST and CGST positive. -/
theorem verify_invalid_tax_split_witness :
    findBill stAnalysed pBadSplit.billId = some billAnalysedW ∧
    badTaxSplit pBadSplit.taxes = true ∧
    verify stAnalysed none 1 pBadSplit = .error .InvalidTaxSplit :=
  ⟨by decide, by decide,
    (verify_invalid_tax_split stAnalysed none 1 pBadSplit billAnalysedW
      (by decide) (by decide) (by decide)).1⟩

/-- C4: analyze on a bill in any state other than Draft yields a
state-conflict error reporting the current and expected states, and
the committed store is exactly the one before the call; analyze
succeeds only from Draft. -/
theorem analyze_requires_draft (st : EngineState) (billId : Nat) (aiOk : Bool)
    (b : Bill) (hfind : findBill st billId = some b)
    (hstate : b.state ≠ BillState.Draft) :
    analyze st billId aiOk = .error (.StateConflict b.state .Draft) ∧
    runAnalyze st billId aiOk = st := by
  have h1 : analyze st billId aiOk = .error (.StateConflict b.state .Draft) := by
    simp [analyze, hfind, hstate]
  exact ⟨h1, by simp [runAnalyze, h1]⟩

/-- Witness for C4: analyze on the sample Analysed bill is rejected. -/
theorem analyze_requires_draft_witness :
    findBill stAnalysed 1 = some billAnalysedW ∧
    analyze stAnalysed 1 true =
      .error (.StateConflict BillState.Analysed BillState.Draft) :=
  ⟨by decide, (analyze_requires_draft stAnalysed 1 true billAnalysedW
    (by decide) (by decide)).1⟩

/-- C5: a valid upload in Multiple mode produces exactly one Draft bill
per page — as many bills as pages, each page appearing exactly once, in
order — and in Single mode exactly one Draft bill referencing the whole
file. -/
theorem upload_split_counts (st : EngineState) (tenant : Nat) (f : UploadFile)
    (mode : SplitMode) (hv : validateFile f = .ok ()) :
    upload st tenant f mode =
      .ok ({ st with
              bills := st.bills ++ mkBills tenant st.nextId (split f mode)
              nextId := st.nextId +
                (mkBills tenant st.nextId (split f mode)).length },
           mkBills tenant st.nextId (split f mode)) ∧
    (mode = .Single →
      (mkBills tenant st.nextId (split f mode)).length = 1 ∧
      (mkBills tenant st.nextId (split f mode)).map Bill.page = [none] ∧
      (mkBills tenant st.nextId (split f mode)).map Bill.fileRef = [f.ref]) ∧
    (mode = .Multiple →
      (mkBills tenant st.nextId (split f mode)).length = f.pages.length ∧
      (mkBills tenant st.nextId (split f mode)).map Bill.page =
        f.pages.map some) := by
  refine ⟨by simp [upload, hv], ?_, ?_⟩
  · intro hm
    subst hm
    refine ⟨?_, ?_, ?_⟩
    · rw [mkBills_length]
      rfl
    · rw [mkBills_map_page]
      rfl
    · rw [mkBills_map_fileRef]
      rfl
  · intro hm
    subst hm
    refine ⟨?_, ?_⟩
    · rw [mkBills_length]
      simp [split]
    · rw [mkBills_map_page]
      simp [split, List.map_map]

/-- Witness for C5: uploading the sample 3-page PDF in Multiple mode
maps its pages one-to-one onto bills. -/
theorem upload_split_counts_witness :
    validateFile fPdfW = .ok () ∧
    (mkBills 1 stEmpty.nextId (split fPdfW .Multiple)).length =
      fPdfW.pages.length ∧
    (mkBills 1 stEmpty.nextId (split fPdfW .Multiple)).map Bill.page =
      fPdfW.pages.map some :=
  ⟨rfl, (upload_split_counts stEmpty 1 fPdfW .Multiple rfl).2.2 rfl⟩

/-- C6: every failing engine operation commits nothing — the store
visible after a failed upload, analyze, verify or sync call is exactly
the store before it, and the error is surfaced, never swallowed
(resolve itself is total: its create-or-fetch step always returns a
ledger). -/
theorem failure_leaves_state_unchanged (st : EngineState) (tenant : Nat)
    (f : UploadFile) (mode : SplitMode) (billId : Nat) (aiOk : Bool)
    (cfg : Option TenantConfig) (p : VerifyPayload)
    (payload : List PostingLine) (externalOk : Bool) :
    (∀ e, upload st tenant f mode = .error e → runUpload st tenant f mode = st) ∧
    (∀ e, analyze st billId aiOk = .error e → runAnalyze st billId aiOk = st) ∧
    (∀ e, verify st cfg tenant p = .error e → runVerify st cfg tenant p = st) ∧
    (∀ e, sync st billId payload externalOk = .error e →
      runSync st billId payload externalOk = st) := by
  refine ⟨?_, ?_, ?_, ?_⟩ <;> intro e h <;>
    simp [runUpload, runAnalyze, runVerify, runSync, h]

/-- Witness for C6: a failing analyze (missing bill) and a failing
verify (invalid tax split) leave the sample stores untouched. -/
theorem failure_leaves_state_unchanged_witness :
    runAnalyze stEmpty 1 true = stEmpty ∧
    runVerify stAnalysed none 1 pBadSplit = stAnalysed :=
  ⟨(failure_leaves_state_unchanged stEmpty 1 fPdfW .Single 1 true none
      pBadSplit [] true).2.1 .NotFound rfl,
   (failure_leaves_state_unchanged stAnalysed 1 fPdfW .Single 1 true none
      pBadSplit [] true).2.2.1 .InvalidTaxSplit rfl⟩

/-- C7: an upload whose declared file type is not PDF, JPG, JPEG or PNG
fails with UnsupportedFormat, and an upload of an accepted type whose
file exceeds the 10MB per-file limit fails with SizeExceeded. -/
theorem upload_rejects_bad_files (st : EngineState) (tenant : Nat)
    (f : UploadFile) (mode : SplitMode) :
    (supportedExt f.ext = false →
      upload st tenant f mode = .error .UnsupportedFormat) ∧
    (supportedExt f.ext = true → f.size > maxFileSize →
      upload st tenant f mode = .error .SizeExceeded) := by
  constructor
  · intro h
    simp [upload, validateFile, h]
  · intro h hs
    simp [upload, validateFile, h, hs]

/-- Witness for C7: an .exe upload is rejected as UnsupportedFormat and
an oversized PDF as SizeExceeded. -/
theorem upload_rejects_bad_files_witness :
    supportedExt fExeW.ext = false ∧
    upload stEmpty 1 fExeW .Single = .error .UnsupportedFormat ∧
    upload stEmpty 1 fBigW .Single = .error .SizeExceeded :=
  ⟨by decide, (upload_rejects_bad_files stEmpty 1 fExeW .Single).1 (by decide),
   (upload_rejects_bad_files stEmpty 1 fBigW .Single).2 (by decide) (by decide)⟩

end Billing
